import Mathlib

/-!
Verification of the `Session` core of the xc220b3 secure-channel program
(`src/main.rs`), shallowly embedded in Lean 4.

Bytes are modelled as `Nat` (mod 256 is irrelevant to the claims: the
stream cipher XORs bytes, and `Nat.xor` restricted to values below 256
stays below 256). Byte strings are `List Nat`.

The external cryptographic primitives (the BLAKE3 extendable-output hash,
the XChaCha20 keystream, SEC1 point parsing, ECDH) are trusted building
blocks supplied by libraries; the embedding abstracts them as a bundle of
functions (`Primitives`), exactly at the call boundary the source uses:

* `blake3::Hasher` absorbs bytes and on `finalize`/`finalize_xof`
  produces a digest of the requested length that is a function of the
  absorbed byte string: `xof absorbed n`.
* `ChaCha20::new_xchacha20(key, nonce)` followed by `process` XORs the
  input with a keystream determined by `(key, nonce)` and the stream
  position: `keystream key nonce i` is the keystream byte at offset `i`.
* `PublicKey::from_sec1_bytes` is `parseSec1` (returns `none` on a
  malformed encoding / invalid curve point).
* `EphemeralSecret::diffie_hellman` is `dh`; `EncodedPoint::from(pk)` of
  the secret's own public key is `pubkeyOf`.

Rust panics (`panic!`, `.expect`, arithmetic underflow) terminate the
process; they are modelled as `Except.error msg` at the outermost level,
distinct from the recoverable `Result<_, SessionError>` value which is
an inner `Except SessionError _`.
-/

/-- Abstract interface of the trusted cryptographic primitives, shaped
exactly as `src/main.rs` consumes them. -/
structure Primitives where
  xof : List Nat → Nat → List Nat
  keystream : List Nat → List Nat → Nat → Nat
  parseSec1 : List Nat → Option (List Nat)
  dh : Nat → List Nat → List Nat
  pubkeyOf : Nat → List Nat
  xof_length : ∀ input n, (xof input n).length = n

/-- XOR a list with a keystream starting at stream offset `i`
(`SynchronousStreamCipher::process`). -/
def xorStream (ks : Nat → Nat) : Nat → List Nat → List Nat
  | _, [] => []
  | i, b :: rest => (b ^^^ ks i) :: xorStream ks (i + 1) rest

/-- State of a `ChaCha20` instance: the key and nonce it was created
with, and the current keystream offset. -/
structure ChaCha20 where
  key : List Nat
  nonce : List Nat
  pos : Nat
deriving DecidableEq

/-- `ChaCha20::new_xchacha20(key, nonce)`. -/
def ChaCha20.new_xchacha20 (key nonce : List Nat) : ChaCha20 :=
  ⟨key, nonce, 0⟩

/-- `SynchronousStreamCipher::process`: XOR with the keystream,
advancing the stream position. -/
def ChaCha20.process (P : Primitives) (st : ChaCha20) (input : List Nat) :
    List Nat × ChaCha20 :=
  (xorStream (P.keystream st.key st.nonce) st.pos input,
   ⟨st.key, st.nonce, st.pos + input.length⟩)

/-- The `SessionError` enum of `src/main.rs`: its only variant is
`MacMismatch`. -/
inductive SessionError where
  | MacMismatch
deriving DecidableEq

/-- The `Session` struct of `src/main.rs`. `b3` is the byte string the
`blake3::Hasher` has absorbed since its last reset. -/
structure Session where
  ready : Bool
  secret : Nat
  pk : List Nat
  key : List Nat
  cc20 : ChaCha20
  b3 : List Nat
deriving DecidableEq

/-- `Session::new`: generates an ephemeral secret (abstracted as the
`secret` parameter drawn from the RNG) and its public encoding; the
session starts not ready, with a zero key, a dummy cipher instance and
an empty hasher. -/
def Session.new (P : Primitives) (secret : Nat) : Session :=
  { ready := false
    secret := secret
    pk := P.pubkeyOf secret
    key := List.replicate 32 0
    cc20 := ChaCha20.new_xchacha20 (List.replicate 32 0) (List.replicate 24 0)
    b3 := [] }

/-- `Session::set_sym_key`: panics if already ready; panics if the peer
key fails to parse (`.expect("public key is invalid!")`); otherwise
hashes the ECDH shared secret into the 32-byte symmetric key, resets the
hasher, re-creates the cipher and marks the session ready. -/
def Session.set_sym_key (P : Primitives) (s : Session) (pk : List Nat) :
    Except String Session :=
  if s.ready then .error "Session already ready"
  else
    match P.parseSec1 pk with
    | none => .error "public key is invalid!"
    | some p =>
      let shared := P.dh s.secret p
      let key := P.xof (s.b3 ++ shared) 32
      .ok { s with
            key := key
            b3 := []
            cc20 := ChaCha20.new_xchacha20 key (List.replicate 24 0)
            ready := true }

/-- `Session::mac`: panics if not ready; absorbs `plain` then the
symmetric key, extracts a 24-byte XOF digest and resets the hasher. -/
def Session.mac (P : Primitives) (s : Session) (plain : List Nat) :
    Except String (Session × List Nat) :=
  if !s.ready then .error "session not ready!"
  else
    let tag := P.xof (s.b3 ++ plain ++ s.key) 24
    .ok ({ s with b3 := [] }, tag)

/-- `Session::encrypt`: panics if not ready; computes the MAC tag, keys
the cipher with `(key, tag)`, XORs the plaintext into the output buffer
and appends the tag. -/
def Session.encrypt (P : Primitives) (s : Session) (plain : List Nat) :
    Except String (Session × List Nat) :=
  if !s.ready then .error "session not ready!"
  else
    match s.mac P plain with
    | .error e => .error e
    | .ok (s1, mac) =>
      let cc := ChaCha20.new_xchacha20 s1.key mac
      let (output, cc1) := cc.process P plain
      .ok ({ s1 with cc20 := cc1 }, output ++ mac)

/-- `Session::decrypt`: panics if not ready; `ciphertext.len() - 24`
underflows and panics when the input is shorter than 24 bytes; otherwise
splits off the trailing 24-byte claimed tag, decrypts with `(key,
claimed_mac)`, recomputes the MAC of the candidate plaintext and returns
`Err(MacMismatch)` if it disagrees with the claimed tag, `Ok(plaintext)`
otherwise. -/
def Session.decrypt (P : Primitives) (s : Session) (ciphertext : List Nat) :
    Except String (Session × Except SessionError (List Nat)) :=
  if !s.ready then .error "session not ready!"
  else if ciphertext.length < 24 then .error "attempt to subtract with overflow"
  else
    let claimed_mac := ciphertext.drop (ciphertext.length - 24)
    let ct := ciphertext.take (ciphertext.length - 24)
    let cc := ChaCha20.new_xchacha20 s.key claimed_mac
    let (output, cc1) := cc.process P ct
    let s1 := { s with cc20 := cc1 }
    match s1.mac P output with
    | .error e => .error e
    | .ok (s2, calculated_mac) =>
      if claimed_mac ≠ calculated_mac then
        .ok (s2, .error SessionError.MacMismatch)
      else
        .ok (s2, .ok output)

/-- A concrete instantiation of the primitive bundle, used to evaluate
the development on concrete inputs. -/
def P0 : Primitives where
  xof := fun _ n => List.replicate n 0
  keystream := fun _ _ _ => 0
  parseSec1 := fun l => if l = [] then none else some l
  dh := fun _ p => p
  pubkeyOf := fun n => [n % 256]
  xof_length := fun _ n => List.length_replicate n 0

/-- The state a session built on `P0` reaches after completing key
agreement (`set_sym_key`) with a valid nonempty peer encoding, for
secret `1`. Used to evaluate the theorems on concrete inputs. -/
def sA0 : Session :=
  { ready := true
    secret := 1
    pk := [1]
    key := List.replicate 32 0
    cc20 := ⟨List.replicate 32 0, List.replicate 24 0, 0⟩
    b3 := [] }

/-- Same as `sA0` for the peer side, secret `2`. -/
def sB0 : Session :=
  { ready := true
    secret := 2
    pk := [2]
    key := List.replicate 32 0
    cc20 := ⟨List.replicate 32 0, List.replicate 24 0, 0⟩
    b3 := [] }

/-- The 5-byte plaintext `"Hello"` of the demonstration driver. -/
def hello : List Nat := [72, 101, 108, 108, 111]

/-! ### Helper lemmas -/

theorem xorStream_length (ks : Nat → Nat) (i : Nat) (l : List Nat) :
    (xorStream ks i l).length = l.length := by
  induction l generalizing i with
  | nil => rfl
  | cons b rest ih => simp [xorStream, ih]

theorem xorStream_xorStream (ks : Nat → Nat) (i : Nat) (l : List Nat) :
    xorStream ks i (xorStream ks i l) = l := by
  induction l generalizing i with
  | nil => rfl
  | cons b rest ih => simp [xorStream, ih, Nat.xor_cancel_right]

/-- Unfolding of `Session.mac` on a ready session. -/
theorem Session.mac_eq (P : Primitives) (s : Session) (plain : List Nat)
    (hs : s.ready = true) :
    s.mac P plain = .ok ({ s with b3 := [] }, P.xof (s.b3 ++ plain ++ s.key) 24) := by
  simp [Session.mac, hs]

/-- Unfolding of `Session.encrypt` on a ready session. -/
theorem Session.encrypt_eq (P : Primitives) (s : Session) (plain : List Nat)
    (hs : s.ready = true) :
    s.encrypt P plain =
      .ok ({ s with b3 := [],
                    cc20 := ⟨s.key, P.xof (s.b3 ++ plain ++ s.key) 24, plain.length⟩ },
           xorStream (P.keystream s.key (P.xof (s.b3 ++ plain ++ s.key) 24)) 0 plain
             ++ P.xof (s.b3 ++ plain ++ s.key) 24) := by
  simp [Session.encrypt, Session.mac_eq P s plain hs, hs,
        ChaCha20.new_xchacha20, ChaCha20.process]

/-- Unfolding of `Session.decrypt` on a ready session fed an input of
length at least 24. -/
theorem Session.decrypt_eq (P : Primitives) (s : Session) (input : List Nat)
    (hs : s.ready = true) (hlen : 24 ≤ input.length) :
    s.decrypt P input =
      .ok ({ s with b3 := [],
                    cc20 := ⟨s.key, input.drop (input.length - 24),
                             (input.take (input.length - 24)).length⟩ },
           if input.drop (input.length - 24) =
               P.xof (s.b3 ++
                 xorStream
                   (P.keystream s.key (input.drop (input.length - 24))) 0
                   (input.take (input.length - 24)) ++ s.key) 24
           then .ok (xorStream
                   (P.keystream s.key (input.drop (input.length - 24))) 0
                   (input.take (input.length - 24)))
           else .error SessionError.MacMismatch) := by
  have hnl : ¬ input.length < 24 := Nat.not_lt.mpr hlen
  simp only [Session.decrypt, hs, Bool.not_true, Bool.false_eq_true, if_false,
    hnl, ite_not, ChaCha20.new_xchacha20, ChaCha20.process]
  rw [Session.mac_eq]
  · simp
    split <;> rfl
  · rfl

/-- Decrypting the exact wire image produced for plaintext `m` under the
session's own key succeeds and recovers `m`, for any quiescent ready
session holding that key. -/
theorem Session.decrypt_encrypt_output (P : Primitives) (t : Session) (m : List Nat)
    (ht : t.ready = true) (htb : t.b3 = []) :
    ∃ t1, t.decrypt P
        (xorStream (P.keystream t.key (P.xof (m ++ t.key) 24)) 0 m
          ++ P.xof (m ++ t.key) 24) =
      .ok (t1, .ok m) := by
  have hclen : (xorStream (P.keystream t.key (P.xof (m ++ t.key) 24)) 0 m).length
      = m.length := xorStream_length _ _ _
  have htaglen : (P.xof (m ++ t.key) 24).length = 24 := P.xof_length _ _
  have hlen : (xorStream (P.keystream t.key (P.xof (m ++ t.key) 24)) 0 m
      ++ P.xof (m ++ t.key) 24).length = m.length + 24 := by
    simp [hclen, htaglen]
  have h24 : 24 ≤ (xorStream (P.keystream t.key (P.xof (m ++ t.key) 24)) 0 m
      ++ P.xof (m ++ t.key) 24).length := by omega
  rw [Session.decrypt_eq P t _ ht h24]
  have hsub : (xorStream (P.keystream t.key (P.xof (m ++ t.key) 24)) 0 m
      ++ P.xof (m ++ t.key) 24).length - 24
      = (xorStream (P.keystream t.key (P.xof (m ++ t.key) 24)) 0 m).length := by
    omega
  rw [hsub, List.drop_left, List.take_left, htb,
      xorStream_xorStream (P.keystream t.key (P.xof (m ++ t.key) 24)) 0 m]
  simp

/-- `Session.mac` on a quiescent ready session (empty hasher). -/
theorem Session.mac_eq' (P : Primitives) (s : Session) (plain : List Nat)
    (hs : s.ready = true) (hb : s.b3 = []) :
    s.mac P plain = .ok ({ s with b3 := [] }, P.xof (plain ++ s.key) 24) := by
  rw [Session.mac_eq P s plain hs, hb]
  simp

/-- `Session.encrypt` on a quiescent ready session (empty hasher). -/
theorem Session.encrypt_eq' (P : Primitives) (s : Session) (plain : List Nat)
    (hs : s.ready = true) (hb : s.b3 = []) :
    s.encrypt P plain =
      .ok ({ s with b3 := [],
                    cc20 := ⟨s.key, P.xof (plain ++ s.key) 24, plain.length⟩ },
           xorStream (P.keystream s.key (P.xof (plain ++ s.key) 24)) 0 plain
             ++ P.xof (plain ++ s.key) 24) := by
  rw [Session.encrypt_eq P s plain hs, hb]
  simp

/-- Facts about a successful `set_sym_key` call: the resulting session is
ready, its hasher is reset, and its key is the 32-byte digest of the
ECDH shared secret. -/
theorem Session.set_sym_key_ok (P : Primitives) (s s' : Session) (pk : List Nat)
    (h : s.set_sym_key P pk = .ok s') :
    s'.ready = true ∧ s'.b3 = [] ∧
      ∃ p, P.parseSec1 pk = some p ∧
        s'.key = P.xof (s.b3 ++ P.dh s.secret p) 32 := by
  unfold Session.set_sym_key at h
  by_cases hr : s.ready
  · simp [hr] at h
  · cases hp : P.parseSec1 pk with
    | none => rw [hp] at h; simp [hr] at h
    | some p =>
      rw [hp] at h
      simp [hr] at h
      subst h
      exact ⟨rfl, rfl, p, rfl, rfl⟩

/-! ### Claims -/

/-- C1: For every plaintext `m` and every pair of sessions that each
completed key agreement with the other's public key (and so hold the
same symmetric key — key equality is supplied by the ECDH primitive's
symmetry, which the source trusts), decrypt on one session of the output
of encrypt on the other returns `m` successfully. -/
theorem Session.roundtrip_between_peers (P : Primitives) (a b : Nat) (m : List Nat)
    (sA sB : Session)
    (hA : (Session.new P a).set_sym_key P (Session.new P b).pk = .ok sA)
    (hB : (Session.new P b).set_sym_key P (Session.new P a).pk = .ok sB)
    (hk : sA.key = sB.key) :
    ∃ sA1 out sB1, sA.encrypt P m = .ok (sA1, out) ∧
      sB.decrypt P out = .ok (sB1, .ok m) := by
  obtain ⟨hAr, hAb, -⟩ := Session.set_sym_key_ok P _ sA _ hA
  obtain ⟨hBr, hBb, -⟩ := Session.set_sym_key_ok P _ sB _ hB
  have henc := Session.encrypt_eq' P sA m hAr hAb
  rw [hk] at henc
  obtain ⟨t1, hdec⟩ := Session.decrypt_encrypt_output P sB m hBr hBb
  exact ⟨_, _, t1, henc, hdec⟩

/-- Witness for C1 at concrete primitives, secrets 1 and 2, and the
plaintext "Hello". -/
theorem Session.roundtrip_between_peers_witness :
    ∃ sA1 out sB1, sA0.encrypt P0 hello = .ok (sA1, out) ∧
      sB0.decrypt P0 out = .ok (sB1, .ok hello) :=
  Session.roundtrip_between_peers P0 1 2 hello sA0 sB0 rfl rfl rfl

/-- C6: On a ready session the output of encrypt is the stream-cipher
ciphertext (same length as the plaintext) followed by the 24-byte tag,
so the output length is plaintext length plus 24. -/
theorem Session.encrypt_wire_format (P : Primitives) (s : Session) (m : List Nat)
    (hs : s.ready = true) :
    ∃ s1 ct tag, s.encrypt P m = .ok (s1, ct ++ tag) ∧
      ct.length = m.length ∧ tag.length = 24 ∧
      tag = P.xof (s.b3 ++ m ++ s.key) 24 ∧
      (ct ++ tag).length = m.length + 24 := by
  refine ⟨_, _, _, Session.encrypt_eq P s m hs, xorStream_length _ _ _,
    P.xof_length _ _, rfl, ?_⟩
  simp [xorStream_length, P.xof_length]

/-- Witness for C6: encrypting the 5-byte plaintext "Hello" yields a
29-byte output. -/
theorem Session.encrypt_wire_format_witness :
    (∃ s1 ct tag, sA0.encrypt P0 hello = .ok (s1, ct ++ tag) ∧
      ct.length = hello.length ∧ tag.length = 24 ∧
      tag = P0.xof (sA0.b3 ++ hello ++ sA0.key) 24 ∧
      (ct ++ tag).length = hello.length + 24) ∧ hello.length + 24 = 29 :=
  ⟨Session.encrypt_wire_format P0 sA0 hello rfl, by decide⟩

/-- C7: mac and encrypt are deterministic functions of the plaintext and
the symmetric key: two quiescent ready sessions holding the same key
produce the identical tag and the bit-identical encrypt output on the
same plaintext. -/
theorem Session.mac_encrypt_deterministic (P : Primitives) (s1 s2 : Session)
    (m : List Nat) (h1 : s1.ready = true) (h2 : s2.ready = true)
    (hb1 : s1.b3 = []) (hb2 : s2.b3 = []) (hk : s1.key = s2.key) :
    (∃ t1 t2 tag, s1.mac P m = .ok (t1, tag) ∧ s2.mac P m = .ok (t2, tag)) ∧
    (∃ u1 u2 out, s1.encrypt P m = .ok (u1, out) ∧ s2.encrypt P m = .ok (u2, out)) := by
  constructor
  · refine ⟨_, { s2 with b3 := [] }, _, Session.mac_eq' P s1 m h1 hb1, ?_⟩
    rw [Session.mac_eq' P s2 m h2 hb2, hk]
  · refine ⟨_,
      { s2 with b3 := [], cc20 := ⟨s2.key, P.xof (m ++ s2.key) 24, m.length⟩ },
      _, Session.encrypt_eq' P s1 m h1 hb1, ?_⟩
    rw [Session.encrypt_eq' P s2 m h2 hb2, hk]

/-- Witness for C7 at two concrete sessions holding the same key. -/
theorem Session.mac_encrypt_deterministic_witness :
    (∃ t1 t2 tag, sA0.mac P0 hello = .ok (t1, tag) ∧
      sB0.mac P0 hello = .ok (t2, tag)) ∧
    (∃ u1 u2 out, sA0.encrypt P0 hello = .ok (u1, out) ∧
      sB0.encrypt P0 hello = .ok (u2, out)) :=
  Session.mac_encrypt_deterministic P0 sA0 sB0 hello rfl rfl rfl rfl rfl

/-- C10: A quiescent ready session can decrypt its own output: decrypt
applied (in the post-encrypt state) to the output of encrypt succeeds
and returns the plaintext, for every plaintext including the empty
one. -/
theorem Session.self_roundtrip (P : Primitives) (s : Session) (m : List Nat)
    (hs : s.ready = true) (hb : s.b3 = []) :
    ∃ s1 out s2, s.encrypt P m = .ok (s1, out) ∧
      s1.decrypt P out = .ok (s2, .ok m) := by
  obtain ⟨t1, hdec⟩ := Session.decrypt_encrypt_output P
    { s with b3 := [], cc20 := ⟨s.key, P.xof (m ++ s.key) 24, m.length⟩ } m hs rfl
  exact ⟨_, _, t1, Session.encrypt_eq' P s m hs hb, hdec⟩

/-- Witness for C10 at a concrete ready session and the empty
plaintext. -/
theorem Session.self_roundtrip_witness :
    ∃ s1 out s2, sA0.encrypt P0 [] = .ok (s1, out) ∧
      s1.decrypt P0 out = .ok (s2, .ok []) :=
  Session.self_roundtrip P0 sA0 [] rfl rfl

/-- C2: On a quiescent ready session fed an input of length at least 24,
decrypt returns a plaintext `p` only if the recomputed tag of `p` under
the session key equals the trailing 24-byte claimed tag; whenever the
recomputed tag of the decrypted candidate differs from the claimed tag,
decrypt fails with `MacMismatch` and no plaintext is returned. -/
theorem Session.decrypt_checks_mac (P : Primitives) (s : Session) (input : List Nat)
    (hs : s.ready = true) (hb : s.b3 = []) (hlen : 24 ≤ input.length) :
    (∀ s1 p, s.decrypt P input = .ok (s1, .ok p) →
      P.xof (p ++ s.key) 24 = input.drop (input.length - 24)) ∧
    (P.xof (xorStream (P.keystream s.key (input.drop (input.length - 24))) 0
          (input.take (input.length - 24)) ++ s.key) 24
        ≠ input.drop (input.length - 24) →
      ∃ s1, s.decrypt P input = .ok (s1, .error SessionError.MacMismatch)) := by
  rw [Session.decrypt_eq P s input hs hlen, hb]
  simp only [List.nil_append]
  constructor
  · intro s1 p h
    split at h
    · rename_i hcond
      simp only [Except.ok.injEq, Prod.mk.injEq] at h
      rw [← h.2]
      exact hcond.symm
    · simp at h
  · intro hne
    split
    · rename_i hcond
      exact absurd hcond.symm hne
    · exact ⟨_, rfl⟩

/-- Witness for C2 at a concrete ready session and a concrete 24-byte
input. -/
theorem Session.decrypt_checks_mac_witness :
    (∀ s1 p, sA0.decrypt P0 (List.replicate 24 0) = .ok (s1, .ok p) →
      P0.xof (p ++ sA0.key) 24
        = (List.replicate 24 0).drop ((List.replicate 24 0).length - 24)) ∧
    (P0.xof (xorStream
          (P0.keystream sA0.key
            ((List.replicate 24 0).drop ((List.replicate 24 0).length - 24))) 0
          ((List.replicate 24 0).take ((List.replicate 24 0).length - 24))
          ++ sA0.key) 24
        ≠ (List.replicate 24 0).drop ((List.replicate 24 0).length - 24) →
      ∃ s1, sA0.decrypt P0 (List.replicate 24 0)
        = .ok (s1, .error SessionError.MacMismatch)) :=
  Session.decrypt_checks_mac P0 sA0 (List.replicate 24 0) rfl rfl (by decide)

/-- C3 counterexample: at concrete inputs, encrypt/decrypt/mac on a
not-ready session and a second key agreement on a ready session all end
in a panic (process termination, the outer `Except.error`), not in
recoverable `SessionNotReady`/`AlreadyInitialized` results — the
`SessionError` type has no such variants. -/
theorem Session.ordering_violation_panics_counterexample :
    (Session.new P0 0).encrypt P0 [0] = .error "session not ready!" ∧
    (Session.new P0 0).decrypt P0 [0] = .error "session not ready!" ∧
    (Session.new P0 0).mac P0 [0] = .error "session not ready!" ∧
    sA0.set_sym_key P0 [1] = .error "Session already ready" :=
  ⟨rfl, rfl, rfl, rfl⟩

/-- C3 amended: calling encrypt, decrypt or mac before key agreement
completes panics with "session not ready!", and calling key agreement a
second time panics with "Session already ready"; both are fatal
(modelled as the outer `Except.error`), not recoverable session
results. -/
theorem Session.misuse_panics (P : Primitives) (s t : Session) (m c pk : List Nat)
    (hs : s.ready = false) (ht : t.ready = true) :
    s.encrypt P m = .error "session not ready!" ∧
    s.decrypt P c = .error "session not ready!" ∧
    s.mac P m = .error "session not ready!" ∧
    t.set_sym_key P pk = .error "Session already ready" := by
  refine ⟨?_, ?_, ?_, ?_⟩ <;>
    simp [Session.encrypt, Session.decrypt, Session.mac, Session.set_sym_key,
      hs, ht]

/-- Witness for the amended C3 at concrete sessions. -/
theorem Session.misuse_panics_witness :
    ((Session.new P0 0).ready = false ∧ sA0.ready = true) ∧
    ((Session.new P0 0).encrypt P0 hello = .error "session not ready!" ∧
     (Session.new P0 0).decrypt P0 hello = .error "session not ready!" ∧
     (Session.new P0 0).mac P0 hello = .error "session not ready!" ∧
     sA0.set_sym_key P0 [3] = .error "Session already ready") :=
  ⟨⟨rfl, rfl⟩, Session.misuse_panics P0 (Session.new P0 0) sA0 hello hello [3] rfl rfl⟩

/-- C4 counterexample: decrypt of an empty input on a ready session
panics (the `ciphertext.len() - 24` underflow), rather than returning a
`MalformedCiphertext` outcome — the `SessionError` type has no such
variant. -/
theorem Session.short_input_panics_counterexample :
    sA0.decrypt P0 [] = .error "attempt to subtract with overflow" :=
  rfl

/-- C4 amended: for every input shorter than 24 bytes given to decrypt
on a ready session, the `len - 24` subtraction underflows and the call
panics (fatal), instead of failing with a recoverable
`MalformedCiphertext` outcome. -/
theorem Session.decrypt_short_input_panics (P : Primitives) (s : Session)
    (input : List Nat) (hs : s.ready = true) (hlen : input.length < 24) :
    s.decrypt P input = .error "attempt to subtract with overflow" := by
  simp [Session.decrypt, hs, hlen]

/-- Witness for the amended C4 at a concrete 3-byte input. -/
theorem Session.decrypt_short_input_panics_witness :
    (sA0.ready = true ∧ ([1, 2, 3] : List Nat).length < 24) ∧
    sA0.decrypt P0 [1, 2, 3] = .error "attempt to subtract with overflow" :=
  ⟨⟨rfl, by decide⟩,
   Session.decrypt_short_input_panics P0 sA0 [1, 2, 3] rfl (by decide)⟩

/-- C5 counterexample: key agreement with a peer encoding the SEC1
parser rejects panics (`.expect("public key is invalid!")`), rather
than returning an `InvalidPeerKey` outcome — the `SessionError` type
has no such variant. -/
theorem Session.invalid_peer_key_panics_counterexample :
    (Session.new P0 0).set_sym_key P0 [] = .error "public key is invalid!" :=
  rfl

/-- C5 amended: on a not-ready session, key agreement with a peer
encoding that fails to parse panics (fatal) with "public key is
invalid!"; with a valid encoding it derives the shared secret, hashes it
into the 32-byte symmetric key and marks the session ready. -/
theorem Session.set_sym_key_behavior (P : Primitives) (s : Session)
    (pk1 pk2 p : List Nat) (hs : s.ready = false)
    (h1 : P.parseSec1 pk1 = none) (h2 : P.parseSec1 pk2 = some p) :
    s.set_sym_key P pk1 = .error "public key is invalid!" ∧
    ∃ s1, s.set_sym_key P pk2 = .ok s1 ∧ s1.ready = true ∧ s1.b3 = [] ∧
      s1.key = P.xof (s.b3 ++ P.dh s.secret p) 32 := by
  constructor
  · simp [Session.set_sym_key, hs, h1]
  · unfold Session.set_sym_key
    rw [h2]
    simp only [hs, Bool.false_eq_true, if_false]
    exact ⟨_, rfl, rfl, rfl, rfl⟩

/-- Witness for the amended C5 at a fresh session, an invalid encoding
`[]` and a valid encoding `[7]`. -/
theorem Session.set_sym_key_behavior_witness :
    ((Session.new P0 9).ready = false ∧ P0.parseSec1 [] = none ∧
      P0.parseSec1 [7] = some [7]) ∧
    ((Session.new P0 9).set_sym_key P0 [] = .error "public key is invalid!" ∧
     ∃ s1, (Session.new P0 9).set_sym_key P0 [7] = .ok s1 ∧ s1.ready = true ∧
       s1.b3 = [] ∧
       s1.key = P0.xof ((Session.new P0 9).b3
         ++ P0.dh (Session.new P0 9).secret [7]) 32) :=
  ⟨⟨rfl, rfl, rfl⟩,
   Session.set_sym_key_behavior P0 (Session.new P0 9) [] [7] [7] rfl rfl rfl⟩

/-- C9: every completing encrypt, decrypt or mac call on a ready session
leaves the readiness flag, the symmetric key, the ephemeral secret and
the public-key encoding unchanged (only the cipher and hasher scratch
fields may change); in particular a decrypt that returns `MacMismatch`
leaves the key and readiness unchanged. -/
theorem Session.ops_frame (P : Primitives) (s : Session) (m input : List Nat)
    (hs : s.ready = true) (hlen : 24 ≤ input.length) :
    (∀ s1 out, s.encrypt P m = .ok (s1, out) →
      s1.ready = s.ready ∧ s1.secret = s.secret ∧ s1.pk = s.pk ∧ s1.key = s.key) ∧
    (∀ s1 r, s.decrypt P input = .ok (s1, r) →
      s1.ready = s.ready ∧ s1.secret = s.secret ∧ s1.pk = s.pk ∧ s1.key = s.key) ∧
    (∀ s1 tag, s.mac P m = .ok (s1, tag) →
      s1.ready = s.ready ∧ s1.secret = s.secret ∧ s1.pk = s.pk ∧ s1.key = s.key) := by
  refine ⟨?_, ?_, ?_⟩
  · intro s1 out h
    rw [Session.encrypt_eq P s m hs] at h
    simp only [Except.ok.injEq, Prod.mk.injEq] at h
    rw [← h.1]
    exact ⟨rfl, rfl, rfl, rfl⟩
  · intro s1 r h
    rw [Session.decrypt_eq P s input hs hlen] at h
    simp only [Except.ok.injEq, Prod.mk.injEq] at h
    rw [← h.1]
    exact ⟨rfl, rfl, rfl, rfl⟩
  · intro s1 tag h
    rw [Session.mac_eq P s m hs] at h
    simp only [Except.ok.injEq, Prod.mk.injEq] at h
    rw [← h.1]
    exact ⟨rfl, rfl, rfl, rfl⟩

/-- Witness for C9 at a concrete ready session, the plaintext "Hello"
and a concrete 25-byte decrypt input. -/
theorem Session.ops_frame_witness :
    (sA0.ready = true ∧ 24 ≤ (List.replicate 25 7).length) ∧
    ((∀ s1 out, sA0.encrypt P0 hello = .ok (s1, out) →
      s1.ready = sA0.ready ∧ s1.secret = sA0.secret ∧ s1.pk = sA0.pk ∧
        s1.key = sA0.key) ∧
     (∀ s1 r, sA0.decrypt P0 (List.replicate 25 7) = .ok (s1, r) →
      s1.ready = sA0.ready ∧ s1.secret = sA0.secret ∧ s1.pk = sA0.pk ∧
        s1.key = sA0.key) ∧
     (∀ s1 tag, sA0.mac P0 hello = .ok (s1, tag) →
      s1.ready = sA0.ready ∧ s1.secret = sA0.secret ∧ s1.pk = sA0.pk ∧
        s1.key = sA0.key)) :=
  ⟨⟨rfl, by decide⟩,
   Session.ops_frame P0 sA0 hello (List.replicate 25 7) rfl (by decide)⟩
